import Mathlib

/-
  Verification of the splat sampler and renderer of the
  3d-gaussian-splatting-demo repository.

  The TypeScript host program (src/index.ts) and the WGSL shader
  (src/shader.wgsl) are embedded shallowly: machine floats become real
  numbers, gl-matrix vector operations become operations on triples of
  reals, and the random draws of the sampler become explicit parameters.
-/

open Matrix

namespace GSplat

/-- Vectors of gl-matrix (vec3) as triples of reals. -/
abbrev V3 : Type := ℝ × ℝ × ℝ

/-- Componentwise addition, gl-matrix vec3.add. -/
def add3 (a b : V3) : V3 := (a.1 + b.1, a.2.1 + b.2.1, a.2.2 + b.2.2)

/-- Componentwise subtraction, gl-matrix vec3.sub. -/
def sub3 (a b : V3) : V3 := (a.1 - b.1, a.2.1 - b.2.1, a.2.2 - b.2.2)

/-- Scalar multiple, gl-matrix vec3.scale. -/
def smul3 (c : ℝ) (a : V3) : V3 := (c * a.1, c * a.2.1, c * a.2.2)

/-- Dot product of two vec3 values. -/
def dot3 (a b : V3) : ℝ := a.1 * b.1 + a.2.1 * b.2.1 + a.2.2 * b.2.2

/-- Cross product, gl-matrix vec3.cross. -/
def cross3 (a b : V3) : V3 :=
  (a.2.1 * b.2.2 - a.2.2 * b.2.1,
   a.2.2 * b.1 - a.1 * b.2.2,
   a.1 * b.2.1 - a.2.1 * b.1)

/-- Euclidean length of a vec3, gl-matrix vec3.length / Math.hypot. -/
noncomputable def norm3 (a : V3) : ℝ := Real.sqrt (dot3 a a)

/-- gl-matrix vec3.normalize: the squared length is computed, the scale
factor is its inverse square root when it is positive and the (zero)
squared length itself otherwise. -/
noncomputable def normalize3 (a : V3) : V3 :=
  smul3 (if 0 < dot3 a a then 1 / Real.sqrt (dot3 a a) else dot3 a a) a

/-- The mesh model of index.ts: vertex positions, faces as triples of
vertex indices, one normal per face. -/
structure Model where
  vertices : List V3
  faces : List (Nat × Nat × Nat)
  normals : List V3

/-- The per-face normal stored by getBunnyModel: the cross product of the
two edge vectors out of the first vertex, normalized in place. -/
noncomputable def faceNormal (t0 t1 t2 : V3) : V3 :=
  normalize3 (cross3 (sub3 t1 t0) (sub3 t2 t0))

/-- The model built by getBunnyModel from a vertex list and a face list:
every face additionally records its normalized face normal. -/
noncomputable def buildModel (vertices : List V3) (faces : List (Nat × Nat × Nat)) : Model :=
  { vertices := vertices
    faces := faces
    normals := faces.map (fun f =>
      faceNormal (vertices.getD f.1 (0, 0, 0))
        (vertices.getD f.2.1 (0, 0, 0))
        (vertices.getD f.2.2 (0, 0, 0))) }

/-- The scan of randomIndexWithProbability: accumulate the weights and
return the first index whose cumulative weight exceeds the draw; when the
list is exhausted the function returns -1. -/
noncomputable def scanSelect (n : ℝ) : ℝ → Nat → List ℝ → Int
  | _, _, [] => -1
  | sum, i, w :: ws =>
    if n < sum + w then Int.ofNat i else scanSelect n (sum + w) (i + 1) ws

/-- randomIndexWithProbability of index.ts, with the uniform draw
Math.random() passed in as the explicit parameter rand: the draw over
the total weight is n = rand * total. -/
noncomputable def randomIndexWithProbability (weights : List ℝ) (rand : ℝ) : Int :=
  scanSelect (rand * weights.foldl (fun sum w => sum + w) 0) 0 0 weights

/-- The barycentric fold of generateGaussians: when u + v exceeds 1 both
coordinates are reflected, otherwise they are kept. -/
noncomputable def foldUV (u v : ℝ) : ℝ × ℝ := if 1 < u + v then (1 - u, 1 - v) else (u, v)

/-- The position computed by generateGaussians from the three triangle
vertices and the (already folded) barycentric coordinates. -/
def baryPosition (t0 t1 t2 : V3) (u v : ℝ) : V3 :=
  add3 (add3 (smul3 (1 - u - v) t0) (smul3 u t1)) (smul3 v t2)

/-- Claim C2. The weighted face selection on total overflow of the draw.
The claim states that when the draw n is not below any cumulative prefix
sum the scan still returns the index of the last face and never a sentinel.
On the weight list [1, 1] with rand = 1 the draw is n = 2, no prefix sum
exceeds it, and the code returns the sentinel -1 instead of the last
index 1. -/
theorem C2_overflow_returns_sentinel :
    randomIndexWithProbability [(1 : ℝ), 1] 1 = -1 ∧ (-1 : Int) ≠ 1 := by
  constructor
  · unfold randomIndexWithProbability
    norm_num [scanSelect]
  · decide

/-- Claim C6. Barycentric containment: for u, v uniform in [0,1), folded exactly
when u + v exceeds 1 (the boundary u + v = 1 is not folded), the resulting
coefficients (1-u-v, u, v) lie in [0,1] and sum to 1, and the generated
position is the corresponding convex combination of the triangle
vertices. -/
theorem C6_barycentric_containment (u v : ℝ)
    (hu0 : 0 ≤ u) (hu1 : u < 1) (hv0 : 0 ≤ v) (hv1 : v < 1) (t0 t1 t2 : V3) :
    (0 ≤ 1 - (foldUV u v).1 - (foldUV u v).2 ∧ 1 - (foldUV u v).1 - (foldUV u v).2 ≤ 1) ∧
    (0 ≤ (foldUV u v).1 ∧ (foldUV u v).1 ≤ 1) ∧
    (0 ≤ (foldUV u v).2 ∧ (foldUV u v).2 ≤ 1) ∧
    (1 - (foldUV u v).1 - (foldUV u v).2) + (foldUV u v).1 + (foldUV u v).2 = 1 ∧
    (u + v = 1 → foldUV u v = (u, v)) ∧
    baryPosition t0 t1 t2 (foldUV u v).1 (foldUV u v).2 =
      add3 (add3 (smul3 (1 - (foldUV u v).1 - (foldUV u v).2) t0)
        (smul3 (foldUV u v).1 t1)) (smul3 (foldUV u v).2 t2) := by
  unfold foldUV
  split_ifs with h
  · refine ⟨⟨by dsimp only; linarith, by dsimp only; linarith⟩,
      ⟨by dsimp only; linarith, by dsimp only; linarith⟩,
      ⟨by dsimp only; linarith, by dsimp only; linarith⟩,
      by dsimp only; ring, fun he => absurd h (by simp [he]), rfl⟩
  · refine ⟨⟨by dsimp only; linarith, by dsimp only; linarith⟩,
      ⟨by dsimp only; linarith, by dsimp only; linarith⟩,
      ⟨by dsimp only; linarith, by dsimp only; linarith⟩,
      by dsimp only; ring, fun _ => rfl, rfl⟩

/-- Witness for C6 at u = v = 3/4 (the folded branch) on a concrete
triangle. -/
theorem C6_barycentric_containment_witness :
    (0 ≤ 1 - (foldUV (3/4 : ℝ) (3/4)).1 - (foldUV (3/4 : ℝ) (3/4)).2 ∧
      1 - (foldUV (3/4 : ℝ) (3/4)).1 - (foldUV (3/4 : ℝ) (3/4)).2 ≤ 1) ∧
    (0 ≤ (foldUV (3/4 : ℝ) (3/4)).1 ∧ (foldUV (3/4 : ℝ) (3/4)).1 ≤ 1) ∧
    (0 ≤ (foldUV (3/4 : ℝ) (3/4)).2 ∧ (foldUV (3/4 : ℝ) (3/4)).2 ≤ 1) ∧
    (1 - (foldUV (3/4 : ℝ) (3/4)).1 - (foldUV (3/4 : ℝ) (3/4)).2) +
      (foldUV (3/4 : ℝ) (3/4)).1 + (foldUV (3/4 : ℝ) (3/4)).2 = 1 ∧
    ((3/4 : ℝ) + 3/4 = 1 → foldUV (3/4 : ℝ) (3/4) = (3/4, 3/4)) ∧
    baryPosition ((0 : ℝ), (0 : ℝ), (0 : ℝ)) (1, 0, 0) (0, 1, 0)
        (foldUV (3/4 : ℝ) (3/4)).1 (foldUV (3/4 : ℝ) (3/4)).2 =
      add3 (add3 (smul3 (1 - (foldUV (3/4 : ℝ) (3/4)).1 - (foldUV (3/4 : ℝ) (3/4)).2)
        ((0 : ℝ), (0 : ℝ), (0 : ℝ))) (smul3 (foldUV (3/4 : ℝ) (3/4)).1 (1, 0, 0)))
        (smul3 (foldUV (3/4 : ℝ) (3/4)).2 (0, 1, 0)) :=
  C6_barycentric_containment (3/4) (3/4) (by norm_num) (by norm_num)
    (by norm_num) (by norm_num) ((0 : ℝ), (0 : ℝ), (0 : ℝ)) (1, 0, 0) (0, 1, 0)

/-- The per-face weights computed at the top of generateGaussians: the
length of each stored normal (areas in the source, with the comment that
the factor 1/2 need not be applied). -/
noncomputable def sampleWeights (model : Model) : List ℝ := model.normals.map norm3

/-- The mathematical surface area of a triangle: half the length of the
raw (unnormalized) cross product of two edges. -/
noncomputable def triangleArea (t0 t1 t2 : V3) : ℝ :=
  norm3 (cross3 (sub3 t1 t0) (sub3 t2 t0)) / 2

/-- Vertices of a two-triangle mesh whose faces have areas 1/2 and 2. -/
def twoTriVerts : List V3 :=
  [((0 : ℝ), (0 : ℝ), (0 : ℝ)), (1, 0, 0), (0, 1, 0),
   (0, 0, 0), (2, 0, 0), (0, 2, 0)]

/-- Faces of the two-triangle mesh. -/
def twoTriFaces : List (Nat × Nat × Nat) := [(0, 1, 2), (3, 4, 5)]

/-- The two-triangle mesh as built by the loader. -/
noncomputable def twoTriModel : Model := buildModel twoTriVerts twoTriFaces

lemma sqrt_sixteen : Real.sqrt 16 = 4 := by
  rw [show (16 : ℝ) = 4 ^ 2 by norm_num, Real.sqrt_sq (by norm_num)]

lemma faceNormal_small : faceNormal ((0 : ℝ), (0 : ℝ), (0 : ℝ)) (1, 0, 0) (0, 1, 0) = (0, 0, 1) := by
  unfold faceNormal normalize3 cross3 sub3 dot3 smul3
  norm_num

lemma faceNormal_large : faceNormal ((0 : ℝ), (0 : ℝ), (0 : ℝ)) (2, 0, 0) (0, 2, 0) = (0, 0, 1) := by
  unfold faceNormal normalize3 cross3 sub3 dot3 smul3
  norm_num [sqrt_sixteen]

lemma norm3_e3 : norm3 ((0 : ℝ), (0 : ℝ), (1 : ℝ)) = 1 := by
  unfold norm3 dot3
  norm_num

/-- Claim C1. The loader normalizes every face normal before storing it, so the
sampler weight of a face (the length of its stored normal) is 1 for every
nondegenerate face, regardless of its area: on a mesh with face areas 1/2
and 2 both weights are 1, and no constant of proportionality can relate
the weights [1, 1] to the areas [1/2, 2]. -/
theorem C1_weights_not_proportional_to_area :
    sampleWeights twoTriModel = [1, 1] ∧
    triangleArea ((0 : ℝ), (0 : ℝ), (0 : ℝ)) (1, 0, 0) (0, 1, 0) = 1 / 2 ∧
    triangleArea ((0 : ℝ), (0 : ℝ), (0 : ℝ)) (2, 0, 0) (0, 2, 0) = 2 ∧
    ¬ ∃ c : ℝ, (1 : ℝ) = c * (1 / 2) ∧ (1 : ℝ) = c * 2 := by
  refine ⟨?_, ?_, ?_, ?_⟩
  · show [norm3 (faceNormal ((0 : ℝ), (0 : ℝ), (0 : ℝ)) (1, 0, 0) (0, 1, 0)),
      norm3 (faceNormal ((0 : ℝ), (0 : ℝ), (0 : ℝ)) (2, 0, 0) (0, 2, 0))] = [1, 1]
    rw [faceNormal_small, faceNormal_large, norm3_e3]
  · unfold triangleArea cross3 sub3
    norm_num [norm3, dot3]
  · unfold triangleArea cross3 sub3
    norm_num [norm3, dot3, sqrt_sixteen]
  · rintro ⟨c, h1, h2⟩
    have : c = 2 := by linarith
    rw [this] at h2
    norm_num at h2

/-- The Gaussian splat record of index.ts. The rotation is the 3x3 matrix
whose flat gl-matrix entry r*3+c is the matrix entry (r, c). -/
structure Gaussian where
  position : V3
  rotation : Matrix (Fin 3) (Fin 3) ℝ
  scale : V3
  color : V3
  opacity : ℝ

instance : Inhabited Gaussian :=
  ⟨⟨(0, 0, 0), 1, (0, 0, 0), (0, 0, 0), 0⟩⟩

/-- The 24 floats pushed for one splat by uploadGaussiansToGPU, in source
order: position and a padding zero, the three rotation triples each with a
padding zero, scale and a padding zero, color and opacity. -/
def packOne (g : Gaussian) : List ℝ :=
  [g.position.1, g.position.2.1, g.position.2.2, 0,
   g.rotation 0 0, g.rotation 0 1, g.rotation 0 2, 0,
   g.rotation 1 0, g.rotation 1 1, g.rotation 1 2, 0,
   g.rotation 2 0, g.rotation 2 1, g.rotation 2 2, 0,
   g.scale.1, g.scale.2.1, g.scale.2.2, 0,
   g.color.1, g.color.2.1, g.color.2.2, g.opacity]

/-- The flat array built by uploadGaussiansToGPU over the whole splat
sequence. -/
def uploadArray : List Gaussian → List ℝ
  | [] => []
  | g :: gs => packOne g ++ uploadArray gs

/-- Reading one splat record back from the flat array at the fixed
96-byte (24-float) stride, taking the fields from the layout offsets. -/
def unpackAt (arr : List ℝ) (i : Nat) : Gaussian :=
  { position := (arr.getD (24 * i + 0) 0, arr.getD (24 * i + 1) 0, arr.getD (24 * i + 2) 0)
    rotation := Matrix.of
      ![![arr.getD (24 * i + 4) 0, arr.getD (24 * i + 5) 0, arr.getD (24 * i + 6) 0],
        ![arr.getD (24 * i + 8) 0, arr.getD (24 * i + 9) 0, arr.getD (24 * i + 10) 0],
        ![arr.getD (24 * i + 12) 0, arr.getD (24 * i + 13) 0, arr.getD (24 * i + 14) 0]]
    scale := (arr.getD (24 * i + 16) 0, arr.getD (24 * i + 17) 0, arr.getD (24 * i + 18) 0)
    color := (arr.getD (24 * i + 20) 0, arr.getD (24 * i + 21) 0, arr.getD (24 * i + 22) 0)
    opacity := arr.getD (24 * i + 23) 0 }

lemma packOne_length (g : Gaussian) : (packOne g).length = 24 := rfl

lemma unpackAt_head (g : Gaussian) (rest : List ℝ) :
    unpackAt (packOne g ++ rest) 0 = g := by
  have hR : (Matrix.of ![![g.rotation 0 0, g.rotation 0 1, g.rotation 0 2],
      ![g.rotation 1 0, g.rotation 1 1, g.rotation 1 2],
      ![g.rotation 2 0, g.rotation 2 1, g.rotation 2 2]]) = g.rotation := by
    ext r c
    fin_cases r <;> fin_cases c <;> rfl
  calc unpackAt (packOne g ++ rest) 0
      = { position := g.position
          rotation := Matrix.of ![![g.rotation 0 0, g.rotation 0 1, g.rotation 0 2],
            ![g.rotation 1 0, g.rotation 1 1, g.rotation 1 2],
            ![g.rotation 2 0, g.rotation 2 1, g.rotation 2 2]]
          scale := g.scale
          color := g.color
          opacity := g.opacity } := rfl
    _ = g := by rw [hR]

lemma getD_shift (g : Gaussian) (rest : List ℝ) (n : Nat) :
    (packOne g ++ rest).getD (24 + n) 0 = rest.getD n 0 := by
  rw [List.getD_append_right]
  · simp [packOne_length]
  · simp [packOne_length]

lemma unpackAt_shift (g : Gaussian) (rest : List ℝ) (i : Nat) :
    unpackAt (packOne g ++ rest) (i + 1) = unpackAt rest i := by
  have h : ∀ k : Nat, (packOne g ++ rest).getD (24 * (i + 1) + k) 0 = rest.getD (24 * i + k) 0 := by
    intro k
    have e : 24 * (i + 1) + k = 24 + (24 * i + k) := by ring
    rw [e, getD_shift]
  unfold unpackAt
  rw [h 0, h 1, h 2, h 4, h 5, h 6, h 8, h 9, h 10, h 12, h 13, h 14,
    h 16, h 17, h 18, h 20, h 21, h 22, h 23]

/-- Claim C8. Packing writes exactly 24 floats per record in the fixed field
order, and reading each field back at the layout offsets reproduces every
stored (non-padding) field of every splat exactly. -/
theorem C8_pack_roundtrip (gs : List Gaussian) :
    (uploadArray gs).length = 24 * gs.length ∧
    ∀ i, i < gs.length → unpackAt (uploadArray gs) i = gs.getD i default := by
  induction gs with
  | nil => exact ⟨rfl, fun i hi => absurd hi (by simp)⟩
  | cons g tl ih =>
    refine ⟨?_, ?_⟩
    · show (packOne g ++ uploadArray tl).length = 24 * (g :: tl).length
      rw [List.length_append, packOne_length, ih.1, List.length_cons]
      ring
    · intro i hi
      cases i with
      | zero => exact unpackAt_head g (uploadArray tl)
      | succ j =>
        show unpackAt (packOne g ++ uploadArray tl) (j + 1) = (g :: tl).getD (j + 1) default
        rw [unpackAt_shift, List.getD_cons_succ]
        exact ih.2 j (by simpa using hi)

/-- A concrete splat used to instantiate the packing round trip. -/
noncomputable def gWitness : Gaussian := ⟨(1, 2, 3), 1, (4, 5, 6), (7, 8, 9), 1 / 2⟩

/-- Witness for C8 on the one-element splat list. -/
theorem C8_pack_roundtrip_witness :
    (uploadArray [gWitness]).length = 24 * [gWitness].length ∧
    unpackAt (uploadArray [gWitness]) 0 = [gWitness].getD 0 default :=
  ⟨(C8_pack_roundtrip [gWitness]).1, (C8_pack_roundtrip [gWitness]).2 0 (by norm_num)⟩

/-- The scale matrix S of vs_main, built from the splat scale vector. -/
def scaleMat (s : Fin 3 → ℝ) : Matrix (Fin 3) (Fin 3) ℝ :=
  !![s 0, 0, 0; 0, s 1, 0; 0, 0, s 2]

/-- The object-space covariance Sigma3x3 = R * S * transpose(S) *
transpose(R) of vs_main. -/
def Sigma3x3 (R : Matrix (Fin 3) (Fin 3) ℝ) (s : Fin 3 → ℝ) : Matrix (Fin 3) (Fin 3) ℝ :=
  R * scaleMat s * (scaleMat s)ᵀ * Rᵀ

lemma Sigma3x3_eq_mul_transpose (R : Matrix (Fin 3) (Fin 3) ℝ) (s : Fin 3 → ℝ) :
    Sigma3x3 R s = (R * scaleMat s) * (R * scaleMat s)ᵀ := by
  rw [Sigma3x3, Matrix.transpose_mul, ← Matrix.mul_assoc]

lemma Sigma3x3_transpose (R : Matrix (Fin 3) (Fin 3) ℝ) (s : Fin 3 → ℝ) :
    (Sigma3x3 R s)ᵀ = Sigma3x3 R s := by
  rw [Sigma3x3_eq_mul_transpose, Matrix.transpose_mul, Matrix.transpose_transpose,
    ← Sigma3x3_eq_mul_transpose]

lemma dotProduct_self_nn {n : ℕ} (v : Fin n → ℝ) : 0 ≤ v ⬝ᵥ v := by
  unfold Matrix.dotProduct
  exact Finset.sum_nonneg fun i _ => mul_self_nonneg (v i)

lemma Sigma3x3_psd (R : Matrix (Fin 3) (Fin 3) ℝ) (s : Fin 3 → ℝ) (x : Fin 3 → ℝ) :
    0 ≤ x ⬝ᵥ Sigma3x3 R s *ᵥ x := by
  rw [Sigma3x3_eq_mul_transpose, ← Matrix.mulVec_mulVec, Matrix.dotProduct_mulVec,
    Matrix.mulVec_transpose]
  exact dotProduct_self_nn _

/-- Claim C4. The object-space covariance Sigma3x3 = R * S * transpose(S) *
transpose(R) computed by the vertex stage is symmetric and positive
semidefinite for every rotation matrix and every scale vector. -/
theorem C4_covariance_symmetric_psd (R : Matrix (Fin 3) (Fin 3) ℝ) (s : Fin 3 → ℝ) :
    (Sigma3x3 R s)ᵀ = Sigma3x3 R s ∧ ∀ x : Fin 3 → ℝ, 0 ≤ x ⬝ᵥ Sigma3x3 R s *ᵥ x :=
  ⟨Sigma3x3_transpose R s, fun x => Sigma3x3_psd R s x⟩

/-- The projected 2x2 covariance of vs_main:
cov = J * W * Sigma3x3 * transpose(W) * transpose(J). -/
def covMat (Jm : Matrix (Fin 2) (Fin 3) ℝ) (W R : Matrix (Fin 3) (Fin 3) ℝ)
    (s : Fin 3 → ℝ) : Matrix (Fin 2) (Fin 2) ℝ :=
  Jm * W * Sigma3x3 R s * Wᵀ * Jmᵀ

lemma covMat_transpose (Jm : Matrix (Fin 2) (Fin 3) ℝ) (W R : Matrix (Fin 3) (Fin 3) ℝ)
    (s : Fin 3 → ℝ) : (covMat Jm W R s)ᵀ = covMat Jm W R s := by
  simp only [covMat, Matrix.transpose_mul, Matrix.transpose_transpose, Sigma3x3_transpose,
    Matrix.mul_assoc]

/-- The clamped determinant d = max(0, determinant(cov)) of vs_main. -/
noncomputable def detClamp (c : Matrix (Fin 2) (Fin 2) ℝ) : ℝ := max 0 c.det

/-- The inverse covariance carried to the fragment stage. vs_main emits
inv_cov_0 = 1/d * (cov[1][1], -cov[1][0]) and
inv_cov_1 = 1/d * (-cov[0][1], cov[0][0]), and fs_main assembles the
matrix m = mat2x2(inv_cov_0, inv_cov_1). WGSL matrices are column-major
(cov[i][j] is the row-j column-i entry and inv_cov_0, inv_cov_1 are the
columns of m), so row-major m is as below. -/
noncomputable def fsInvCov (c : Matrix (Fin 2) (Fin 2) ℝ) : Matrix (Fin 2) (Fin 2) ℝ :=
  !![1 / detClamp c * c 1 1, 1 / detClamp c * -(c 1 0);
     1 / detClamp c * -(c 0 1), 1 / detClamp c * c 0 0]

lemma fsInvCov_eq_inv (c : Matrix (Fin 2) (Fin 2) ℝ) (hsym : c 1 0 = c 0 1)
    (hdet : 0 < c.det) : fsInvCov c = c⁻¹ := by
  have hd : detClamp c = c.det := max_eq_right hdet.le
  rw [Matrix.inv_def, Matrix.adjugate_fin_two, Ring.inverse_eq_inv]
  ext i j
  fin_cases i <;> fin_cases j <;>
    simp [fsInvCov, hd, hsym]

/-- Claim C5. For the projected covariance cov = J * W * Sigma3x3 * transpose(W)
* transpose(J) with positive determinant, the closed-form inverse
covariance assembled by the shader is a genuine two-sided inverse of cov,
and the clamped determinant max(0, det) is never negative for any 2x2
matrix. -/
theorem C5_inverse_covariance (Jm : Matrix (Fin 2) (Fin 3) ℝ)
    (W R : Matrix (Fin 3) (Fin 3) ℝ) (s : Fin 3 → ℝ)
    (hdet : 0 < (covMat Jm W R s).det) :
    fsInvCov (covMat Jm W R s) * covMat Jm W R s = 1 ∧
    covMat Jm W R s * fsInvCov (covMat Jm W R s) = 1 ∧
    ∀ c : Matrix (Fin 2) (Fin 2) ℝ, 0 ≤ detClamp c := by
  have hsym : covMat Jm W R s 1 0 = covMat Jm W R s 0 1 :=
    calc covMat Jm W R s 1 0 = (covMat Jm W R s)ᵀ 0 1 := rfl
      _ = covMat Jm W R s 0 1 := by rw [covMat_transpose]
  have hinv := fsInvCov_eq_inv (covMat Jm W R s) hsym hdet
  have hunit : IsUnit (covMat Jm W R s).det := isUnit_iff_ne_zero.2 (ne_of_gt hdet)
  exact ⟨by rw [hinv]; exact Matrix.nonsing_inv_mul _ hunit,
    by rw [hinv]; exact Matrix.mul_nonsing_inv _ hunit,
    fun c => le_max_left 0 c.det⟩

/-- The Jacobian matrix of the concrete witness projection. -/
def jmW : Matrix (Fin 2) (Fin 3) ℝ := !![1, 0, 0; 0, 1, 0]

lemma covMat_jmW : covMat jmW 1 1 (fun _ => 1) = 1 := by
  have hs : scaleMat (fun _ => 1) = 1 := by
    ext i j
    fin_cases i <;> fin_cases j <;>
      simp [scaleMat, Matrix.one_apply, Matrix.vecHead, Matrix.vecTail]
  have h1 : Sigma3x3 1 (fun _ => 1) = 1 := by
    rw [Sigma3x3, hs]
    simp
  rw [covMat, h1]
  simp only [Matrix.mul_one, Matrix.one_mul, Matrix.transpose_one]
  ext i j
  fin_cases i <;> fin_cases j <;>
    simp [jmW, Matrix.mul_apply, Fin.sum_univ_three, Matrix.one_apply,
      Matrix.transpose_apply, Matrix.vecHead, Matrix.vecTail]

/-- Witness for C5 at a concrete projected covariance equal to the
identity. -/
theorem C5_inverse_covariance_witness :
    0 < (covMat jmW 1 1 (fun _ => 1)).det ∧
    fsInvCov (covMat jmW 1 1 (fun _ => 1)) * covMat jmW 1 1 (fun _ => 1) = 1 ∧
    covMat jmW 1 1 (fun _ => 1) * fsInvCov (covMat jmW 1 1 (fun _ => 1)) = 1 := by
  have hdet : 0 < (covMat jmW 1 1 (fun _ => 1)).det := by
    rw [covMat_jmW]
    simp
  exact ⟨hdet, (C5_inverse_covariance jmW 1 1 (fun _ => 1) hdet).1,
    (C5_inverse_covariance jmW 1 1 (fun _ => 1) hdet).2.1⟩

/-- The fixed projection constant k = -1 / tan(radians(30)) of vs_main. -/
noncomputable def kconst : ℝ := -1 / Real.tan (Real.pi / 6)

/-- The first component of the screen projection pp of vs_main,
p.x * k / aspectRatio / p.z, as a function of the camera-space point. -/
noncomputable def projX (ar x z : ℝ) : ℝ := x * kconst / ar / z

/-- The second component of the screen projection pp of vs_main,
p.y * k / p.z. -/
noncomputable def projY (y z : ℝ) : ℝ := y * kconst / z

/-- The Jacobian J of vs_main (a WGSL mat3x2, i.e. three columns of two
entries; written here row-major as a 2x3 matrix). -/
noncomputable def Jmat (ar x y z : ℝ) : Matrix (Fin 2) (Fin 3) ℝ :=
  !![kconst / z / ar, 0, x * -kconst / ar / z / z;
     0, kconst / z, y * -kconst / z / z]

/-- Claim C3. For p.z nonzero the matrix J built by the vertex stage equals,
entry by entry, the claimed closed form, and each entry is the partial
derivative of the corresponding component of the screen projection map
in the corresponding camera-space coordinate. -/
theorem C3_jacobian_is_projection_derivative (ar x y z : ℝ) (hz : z ≠ 0) :
    Jmat ar x y z = !![kconst / (z * ar), 0, -(x * kconst) / (ar * z ^ 2);
      0, kconst / z, -(y * kconst) / z ^ 2] ∧
    HasDerivAt (fun t : ℝ => projX ar t z) (Jmat ar x y z 0 0) x ∧
    HasDerivAt (fun _ : ℝ => projX ar x z) (Jmat ar x y z 0 1) y ∧
    HasDerivAt (fun t : ℝ => projX ar x t) (Jmat ar x y z 0 2) z ∧
    HasDerivAt (fun _ : ℝ => projY y z) (Jmat ar x y z 1 0) x ∧
    HasDerivAt (fun t : ℝ => projY t z) (Jmat ar x y z 1 1) y ∧
    HasDerivAt (fun t : ℝ => projY y t) (Jmat ar x y z 1 2) z := by
  refine ⟨?_, ?_, ?_, ?_, ?_, ?_, ?_⟩
  · ext i j
    fin_cases i <;> fin_cases j <;>
      · simp [Jmat]
        try ring
  · have hfun : (fun t : ℝ => projX ar t z) = fun t : ℝ => t * (kconst / ar / z) := by
      funext t
      unfold projX
      ring
    rw [hfun, show Jmat ar x y z 0 0 = kconst / ar / z by
      rw [show Jmat ar x y z 0 0 = kconst / z / ar from rfl]; ring]
    exact hasDerivAt_mul_const _
  · rw [show Jmat ar x y z 0 1 = 0 from rfl]
    exact hasDerivAt_const y (projX ar x z)
  · have hfun : (fun t : ℝ => projX ar x t) = fun t : ℝ => x * kconst / ar * t⁻¹ := by
      funext t
      unfold projX
      ring
    rw [hfun, show Jmat ar x y z 0 2 = x * kconst / ar * -(z ^ 2)⁻¹ by
      rw [show Jmat ar x y z 0 2 = x * -kconst / ar / z / z from rfl]; ring]
    exact (hasDerivAt_inv hz).const_mul (x * kconst / ar)
  · rw [show Jmat ar x y z 1 0 = 0 from rfl]
    exact hasDerivAt_const x (projY y z)
  · have hfun : (fun t : ℝ => projY t z) = fun t : ℝ => t * (kconst / z) := by
      funext t
      unfold projY
      ring
    rw [hfun, show Jmat ar x y z 1 1 = kconst / z from rfl]
    exact hasDerivAt_mul_const _
  · have hfun : (fun t : ℝ => projY y t) = fun t : ℝ => y * kconst * t⁻¹ := by
      funext t
      unfold projY
      ring
    rw [hfun, show Jmat ar x y z 1 2 = y * kconst * -(z ^ 2)⁻¹ by
      rw [show Jmat ar x y z 1 2 = y * -kconst / z / z from rfl]; ring]
    exact (hasDerivAt_inv hz).const_mul (y * kconst)

/-- Witness for C3 at the camera-space point (0, 0, 1) with aspect
ratio 1. -/
theorem C3_jacobian_is_projection_derivative_witness :
    Jmat 1 0 0 1 = !![kconst / (1 * 1), 0, -(0 * kconst) / (1 * 1 ^ 2);
      0, kconst / 1, -(0 * kconst) / 1 ^ 2] ∧
    HasDerivAt (fun t : ℝ => projX 1 t 1) (Jmat 1 0 0 1 0 0) 0 ∧
    HasDerivAt (fun _ : ℝ => projX 1 0 1) (Jmat 1 0 0 1 0 1) 0 ∧
    HasDerivAt (fun t : ℝ => projX 1 0 t) (Jmat 1 0 0 1 0 2) 1 ∧
    HasDerivAt (fun _ : ℝ => projY 0 1) (Jmat 1 0 0 1 1 0) 0 ∧
    HasDerivAt (fun t : ℝ => projY t 1) (Jmat 1 0 0 1 1 1) 0 ∧
    HasDerivAt (fun t : ℝ => projY 0 t) (Jmat 1 0 0 1 1 2) 1 :=
  C3_jacobian_is_projection_derivative 1 0 0 1 (by norm_num)

/-- The fragment stage fs_main: d is the pixel position minus the
projected center, m the inverse covariance assembled from the two flat
varyings, and the emitted value is the color together with alpha =
opacity * exp(-0.5 * dot(d, m * d)). -/
noncomputable def fsMain (position projected_p : Fin 2 → ℝ)
    (m : Matrix (Fin 2) (Fin 2) ℝ) (color : V3) (opacity : ℝ) : V3 × ℝ :=
  (color,
    opacity * Real.exp (-(1 / 2) * ((position - projected_p) ⬝ᵥ m *ᵥ (position - projected_p))))

/-- Counterexample to C10 as stated: the zero matrix is positive
semidefinite, and with it the emitted alpha equals the opacity at a pixel
that is not the projected center, so equality does not hold exactly at
the center. -/
theorem C10_counterexample :
    (∀ w : Fin 2 → ℝ, 0 ≤ w ⬝ᵥ (0 : Matrix (Fin 2) (Fin 2) ℝ) *ᵥ w) ∧
    (fsMain ![1, 0] ![0, 0] 0 (1, 1, 1) 1).2 = 1 ∧
    (![(1 : ℝ), 0] - ![0, 0]) ≠ 0 := by
  refine ⟨fun w => by simp, by simp [fsMain], ?_⟩
  intro h
  have h0 := congrFun h 0
  norm_num at h0

/-- Claim C10, amended. With a positive semidefinite inverse covariance and a
nonnegative opacity, the emitted rgb is the splat color unchanged and the
alpha never exceeds the opacity, with equality at the projected center;
equality holds only at the center under the stronger hypotheses that the
inverse covariance is positive definite and the opacity positive. -/
theorem C10_alpha_bounded_amended (position projected_p : Fin 2 → ℝ)
    (m : Matrix (Fin 2) (Fin 2) ℝ) (color : V3) (opacity : ℝ)
    (hpsd : ∀ w : Fin 2 → ℝ, 0 ≤ w ⬝ᵥ m *ᵥ w) (hop : 0 ≤ opacity) :
    (fsMain position projected_p m color opacity).1 = color ∧
    (fsMain position projected_p m color opacity).2 ≤ opacity ∧
    (position - projected_p = 0 →
      (fsMain position projected_p m color opacity).2 = opacity) ∧
    ((∀ w : Fin 2 → ℝ, w ≠ 0 → 0 < w ⬝ᵥ m *ᵥ w) → 0 < opacity →
      (fsMain position projected_p m color opacity).2 = opacity →
      position - projected_p = 0) := by
  refine ⟨rfl, ?_, ?_, ?_⟩
  · have hq := hpsd (position - projected_p)
    have hexp : Real.exp (-(1 / 2) *
        ((position - projected_p) ⬝ᵥ m *ᵥ (position - projected_p))) ≤ 1 := by
      rw [Real.exp_le_one_iff]
      nlinarith
    calc (fsMain position projected_p m color opacity).2
        = opacity * Real.exp (-(1 / 2) *
            ((position - projected_p) ⬝ᵥ m *ᵥ (position - projected_p))) := rfl
      _ ≤ opacity * 1 := mul_le_mul_of_nonneg_left hexp hop
      _ = opacity := mul_one _
  · intro h0
    show opacity * Real.exp (-(1 / 2) *
        ((position - projected_p) ⬝ᵥ m *ᵥ (position - projected_p))) = opacity
    rw [h0]
    simp
  · intro hpd hop0 heq
    by_contra hne
    have hq := hpd (position - projected_p) hne
    have h2 : opacity * Real.exp (-(1 / 2) *
        ((position - projected_p) ⬝ᵥ m *ᵥ (position - projected_p))) = opacity * 1 := by
      rw [mul_one]
      exact heq
    have hx := mul_left_cancel₀ (ne_of_gt hop0) h2
    rw [Real.exp_eq_one_iff] at hx
    nlinarith

/-- Witness for the amended C10 with the identity inverse covariance, the
pixel at the projected center and opacity 1/2. -/
theorem C10_alpha_bounded_amended_witness :
    (fsMain ![0, 0] ![0, 0] 1 (1, 1, 1) (1 / 2)).1 = (1, 1, 1) ∧
    (fsMain ![0, 0] ![0, 0] 1 (1, 1, 1) (1 / 2)).2 ≤ 1 / 2 ∧
    ((![(0 : ℝ), 0] - ![0, 0]) = 0 →
      (fsMain ![0, 0] ![0, 0] 1 (1, 1, 1) (1 / 2)).2 = 1 / 2) ∧
    ((∀ w : Fin 2 → ℝ, w ≠ 0 → 0 < w ⬝ᵥ (1 : Matrix (Fin 2) (Fin 2) ℝ) *ᵥ w) →
      0 < (1 / 2 : ℝ) →
      (fsMain ![0, 0] ![0, 0] 1 (1, 1, 1) (1 / 2)).2 = 1 / 2 →
      (![(0 : ℝ), 0] - ![0, 0]) = 0) :=
  C10_alpha_bounded_amended ![0, 0] ![0, 0] 1 (1, 1, 1) (1 / 2)
    (fun w => by rw [Matrix.one_mulVec]; exact dotProduct_self_nn w) (by norm_num)

lemma dot3_comm (a b : V3) : dot3 a b = dot3 b a := by
  unfold dot3
  ring

lemma dot3_self_nonneg (v : V3) : 0 ≤ dot3 v v := by
  unfold dot3
  have h1 := mul_self_nonneg v.1
  have h2 := mul_self_nonneg v.2.1
  have h3 := mul_self_nonneg v.2.2
  linarith

lemma dot3_self_eq_zero_iff (v : V3) :
    dot3 v v = 0 ↔ v = ((0 : ℝ), (0 : ℝ), (0 : ℝ)) := by
  constructor
  · intro h
    unfold dot3 at h
    have e1 : v.1 * v.1 = 0 :=
      le_antisymm (by nlinarith [mul_self_nonneg v.2.1, mul_self_nonneg v.2.2])
        (mul_self_nonneg v.1)
    have e2 : v.2.1 * v.2.1 = 0 :=
      le_antisymm (by nlinarith [mul_self_nonneg v.1, mul_self_nonneg v.2.2])
        (mul_self_nonneg v.2.1)
    have e3 : v.2.2 * v.2.2 = 0 :=
      le_antisymm (by nlinarith [mul_self_nonneg v.1, mul_self_nonneg v.2.1])
        (mul_self_nonneg v.2.2)
    rw [Prod.ext_iff, Prod.ext_iff]
    exact ⟨mul_self_eq_zero.mp e1, mul_self_eq_zero.mp e2, mul_self_eq_zero.mp e3⟩
  · rintro rfl
    unfold dot3
    norm_num

lemma norm3_eq_zero_iff (v : V3) : norm3 v = 0 ↔ v = ((0 : ℝ), (0 : ℝ), (0 : ℝ)) := by
  unfold norm3
  rw [Real.sqrt_eq_zero (dot3_self_nonneg v), dot3_self_eq_zero_iff]

lemma dot3_pos_of_ne (v : V3) (h : v ≠ ((0 : ℝ), (0 : ℝ), (0 : ℝ))) : 0 < dot3 v v :=
  lt_of_le_of_ne (dot3_self_nonneg v)
    (fun he => h ((dot3_self_eq_zero_iff v).mp he.symm))

lemma norm3_mul_self (v : V3) : norm3 v * norm3 v = dot3 v v :=
  Real.mul_self_sqrt (dot3_self_nonneg v)

lemma norm3_ne_zero (v : V3) (h : v ≠ ((0 : ℝ), (0 : ℝ), (0 : ℝ))) : norm3 v ≠ 0 :=
  fun h0 => h ((norm3_eq_zero_iff v).mp h0)

lemma dot3_smul_left (c : ℝ) (a b : V3) : dot3 (smul3 c a) b = c * dot3 a b := by
  unfold dot3 smul3
  ring

lemma dot3_smul_right (c : ℝ) (a b : V3) : dot3 a (smul3 c b) = c * dot3 a b := by
  unfold dot3 smul3
  ring

lemma cross3_smul_right (c : ℝ) (a b : V3) :
    cross3 a (smul3 c b) = smul3 c (cross3 a b) := by
  unfold cross3 smul3
  rw [Prod.ext_iff, Prod.ext_iff]
  refine ⟨by ring, by ring, by ring⟩

lemma cross3_zero_right (a : V3) :
    cross3 a ((0 : ℝ), (0 : ℝ), (0 : ℝ)) = ((0 : ℝ), (0 : ℝ), (0 : ℝ)) := by
  unfold cross3
  norm_num

lemma smul3_ne_zero (c : ℝ) (v : V3) (hc : c ≠ 0)
    (hv : v ≠ ((0 : ℝ), (0 : ℝ), (0 : ℝ))) :
    smul3 c v ≠ ((0 : ℝ), (0 : ℝ), (0 : ℝ)) := by
  intro h
  apply hv
  unfold smul3 at h
  rw [Prod.ext_iff, Prod.ext_iff] at h ⊢
  exact ⟨(mul_eq_zero.mp h.1).resolve_left hc,
    (mul_eq_zero.mp h.2.1).resolve_left hc,
    (mul_eq_zero.mp h.2.2).resolve_left hc⟩

lemma dot3_cross_left (a b : V3) : dot3 (cross3 a b) a = 0 := by
  unfold dot3 cross3
  ring

lemma dot3_cross_right (a b : V3) : dot3 (cross3 a b) b = 0 := by
  unfold dot3 cross3
  ring

lemma lagrange3 (a b : V3) :
    dot3 (cross3 a b) (cross3 a b) = dot3 a a * dot3 b b - dot3 a b * dot3 a b := by
  unfold dot3 cross3
  ring

/-- The up vector [0, 1, 0] the sampler passes to mat4.lookAt. -/
def up01 : V3 := ((0 : ℝ), 1, 0)

/-- The gl-matrix EPSILON constant of the lookAt degeneracy check. -/
noncomputable def EPSILON : ℝ := 1 / 1000000

/-- Scaling a vector by its reciprocal length, as gl-matrix lookAt does
for the z axis (no zero guard: the caller branch guarantees a nonzero
vector). -/
noncomputable def unit3 (v : V3) : V3 := smul3 (1 / norm3 v) v

/-- Scaling by the reciprocal length with the zero-length guard gl-matrix
lookAt applies to the x and y axes: a zero-length vector is replaced by
the zero vector. -/
noncomputable def safeUnit (v : V3) : V3 :=
  if norm3 v = 0 then ((0 : ℝ), (0 : ℝ), (0 : ℝ)) else smul3 (1 / norm3 v) v

/-- The z axis of mat4.lookAt: the normalized eye - center. -/
noncomputable def lookZ (eye center : V3) : V3 := unit3 (sub3 eye center)

/-- The x axis of mat4.lookAt: the guarded normalization of
cross(up, z). -/
noncomputable def lookX (eye center up : V3) : V3 :=
  safeUnit (cross3 up (lookZ eye center))

/-- The y axis of mat4.lookAt: the guarded normalization of
cross(z, x). -/
noncomputable def lookY (eye center up : V3) : V3 :=
  safeUnit (cross3 (lookZ eye center) (lookX eye center up))

/-- The 3x3 matrix with columns x, y, z, in the flat gl-matrix layout of
mat3.fromMat4 of the lookAt matrix: flat entry r*3+c is the entry
(r, c), so row r is (x_r, y_r, z_r). -/
def axesM (x y z : V3) : Matrix (Fin 3) (Fin 3) ℝ :=
  Matrix.of ![![x.1, y.1, z.1], ![x.2.1, y.2.1, z.2.1], ![x.2.2, y.2.2, z.2.2]]

/-- mat3.fromMat4 of mat4.lookAt(eye, center, up): the identity when
every component of eye - center is below EPSILON in absolute value, and
otherwise the frame matrix of the three axis vectors. -/
noncomputable def lookAtRot (eye center up : V3) : Matrix (Fin 3) (Fin 3) ℝ :=
  if |eye.1 - center.1| < EPSILON ∧ |eye.2.1 - center.2.1| < EPSILON ∧
      |eye.2.2 - center.2.2| < EPSILON then 1
  else axesM (lookX eye center up) (lookY eye center up) (lookZ eye center)

lemma unit3_dot (v : V3) (h : v ≠ ((0 : ℝ), (0 : ℝ), (0 : ℝ))) :
    dot3 (unit3 v) (unit3 v) = 1 := by
  unfold unit3
  rw [dot3_smul_left, dot3_smul_right, ← norm3_mul_self]
  have hnz := norm3_ne_zero v h
  field_simp

lemma axesM_orthonormal (x y z : V3) (hx : dot3 x x = 1) (hy : dot3 y y = 1)
    (hz : dot3 z z = 1) (hxy : dot3 x y = 0) (hxz : dot3 x z = 0)
    (hyz : dot3 y z = 0) :
    (axesM x y z)ᵀ * axesM x y z = 1 ∧ axesM x y z * (axesM x y z)ᵀ = 1 := by
  have hyx := (dot3_comm x y).symm.trans hxy
  have hzx := (dot3_comm x z).symm.trans hxz
  have hzy := (dot3_comm y z).symm.trans hyz
  unfold dot3 at hx hy hz hxy hxz hyz hyx hzx hzy
  have h1 : (axesM x y z)ᵀ * axesM x y z = 1 := by
    ext i j
    fin_cases i <;> fin_cases j <;>
      · simp [axesM, Matrix.mul_apply, Fin.sum_univ_three, Matrix.one_apply,
          Matrix.transpose_apply, Matrix.vecHead, Matrix.vecTail]
        linarith
  exact ⟨h1, Matrix.mul_eq_one_comm.mp h1⟩

/-- Orthonormality of the lookAt frame whenever the up vector is not
parallel to eye - center. -/
lemma lookAtRot_orthonormal (eye center up : V3)
    (h : cross3 up (sub3 eye center) ≠ ((0 : ℝ), (0 : ℝ), (0 : ℝ))) :
    (lookAtRot eye center up)ᵀ * lookAtRot eye center up = 1 ∧
    lookAtRot eye center up * (lookAtRot eye center up)ᵀ = 1 := by
  unfold lookAtRot
  split_ifs with heps
  · simp
  · have hd : sub3 eye center ≠ ((0 : ℝ), (0 : ℝ), (0 : ℝ)) := by
      intro h0
      exact h (by rw [h0]; exact cross3_zero_right up)
    have hzz : dot3 (lookZ eye center) (lookZ eye center) = 1 := unit3_dot _ hd
    have hinv_ne : (1 : ℝ) / norm3 (sub3 eye center) ≠ 0 :=
      one_div_ne_zero (norm3_ne_zero _ hd)
    have hcz : cross3 up (lookZ eye center) =
        smul3 (1 / norm3 (sub3 eye center)) (cross3 up (sub3 eye center)) := by
      unfold lookZ unit3
      exact cross3_smul_right _ _ _
    have hcz_ne : cross3 up (lookZ eye center) ≠ ((0 : ℝ), (0 : ℝ), (0 : ℝ)) := by
      rw [hcz]
      exact smul3_ne_zero _ _ hinv_ne h
    have hxdef : lookX eye center up = unit3 (cross3 up (lookZ eye center)) := by
      unfold lookX safeUnit
      rw [if_neg (fun h0 => hcz_ne ((norm3_eq_zero_iff _).mp h0))]
      rfl
    have hxx : dot3 (lookX eye center up) (lookX eye center up) = 1 := by
      rw [hxdef]
      exact unit3_dot _ hcz_ne
    have hxz : dot3 (lookX eye center up) (lookZ eye center) = 0 := by
      rw [hxdef]
      unfold unit3
      rw [dot3_smul_left, dot3_cross_right]
      ring
    have hw : dot3 (cross3 (lookZ eye center) (lookX eye center up))
        (cross3 (lookZ eye center) (lookX eye center up)) = 1 := by
      rw [lagrange3, hzz, hxx, (dot3_comm (lookZ eye center) (lookX eye center up)).trans hxz]
      ring
    have hw_ne : cross3 (lookZ eye center) (lookX eye center up) ≠
        ((0 : ℝ), (0 : ℝ), (0 : ℝ)) := by
      intro h0
      rw [h0] at hw
      unfold dot3 at hw
      norm_num at hw
    have hydef : lookY eye center up =
        unit3 (cross3 (lookZ eye center) (lookX eye center up)) := by
      unfold lookY safeUnit
      rw [if_neg (fun h0 => hw_ne ((norm3_eq_zero_iff _).mp h0))]
      rfl
    have hyy : dot3 (lookY eye center up) (lookY eye center up) = 1 := by
      rw [hydef]
      exact unit3_dot _ hw_ne
    have hyz : dot3 (lookY eye center up) (lookZ eye center) = 0 := by
      rw [hydef]
      unfold unit3
      rw [dot3_smul_left, dot3_cross_left]
      ring
    have hxy : dot3 (lookX eye center up) (lookY eye center up) = 0 := by
      rw [hydef]
      unfold unit3
      rw [dot3_smul_right, dot3_comm, dot3_cross_right]
      ring
    exact axesM_orthonormal _ _ _ hxx hyy hzz hxy hxz hyz

/-- The face index drawn in one loop iteration of generateGaussians,
truncated to a natural number for the list lookups that follow. -/
noncomputable def sampleIndex (model : Model) (r : ℝ) : Nat :=
  (randomIndexWithProbability (sampleWeights model) r).toNat

/-- The face selected in one loop iteration. -/
noncomputable def sampleFace (model : Model) (r : ℝ) : Nat × Nat × Nat :=
  model.faces.getD (sampleIndex model r) (0, 0, 0)

/-- The position generated in iteration i: the barycentric combination of
the selected triangle vertices with the folded coordinates. The random
stream rands supplies, per iteration, the face draw and the two
barycentric draws. -/
noncomputable def samplePos (model : Model) (rands : Nat → ℝ × ℝ × ℝ) (i : Nat) : V3 :=
  baryPosition
    (model.vertices.getD (sampleFace model (rands i).1).1 (0, 0, 0))
    (model.vertices.getD (sampleFace model (rands i).1).2.1 (0, 0, 0))
    (model.vertices.getD (sampleFace model (rands i).1).2.2 (0, 0, 0))
    (foldUV (rands i).2.1 (rands i).2.2).1
    (foldUV (rands i).2.1 (rands i).2.2).2

/-- The stored normal of the face selected in iteration i. -/
noncomputable def sampleNrm (model : Model) (rands : Nat → ℝ × ℝ × ℝ) (i : Nat) : V3 :=
  model.normals.getD (sampleIndex model (rands i).1) (0, 0, 0)

/-- One loop iteration of generateGaussians: the sampled position, the
rotation mat3.fromMat4(mat4.lookAt(position, normal, [0,1,0])), the fixed
scale [0.001, 0.001, 0.001], the fixed color [0.9, 0.9, 0.9] and the
fixed opacity 0.1. -/
noncomputable def gaussianAt (model : Model) (rands : Nat → ℝ × ℝ × ℝ) (i : Nat) : Gaussian :=
  { position := samplePos model rands i
    rotation := lookAtRot (samplePos model rands i) (sampleNrm model rands i) up01
    scale := (1 / 1000, 1 / 1000, 1 / 1000)
    color := (9 / 10, 9 / 10, 9 / 10)
    opacity := 1 / 10 }

/-- generateGaussians of index.ts: the list of numGaussians loop
iterations, in order. -/
noncomputable def generateGaussians (model : Model) (num : Nat)
    (rands : Nat → ℝ × ℝ × ℝ) : List Gaussian :=
  (List.range num).map (gaussianAt model rands)

/-- A single-face list shared by the concrete one-triangle meshes. -/
def oneFace : List (Nat × Nat × Nat) := [(0, 1, 2)]

/-- The constant random stream drawing 0 everywhere: face draw 0 and
barycentric coordinates (0, 0). -/
def rzero : Nat → ℝ × ℝ × ℝ := fun _ => (0, 0, 0)

/-- Vertices of a triangle whose loader normal is (0, -1, 0), chosen so
that position - normal is parallel to the up vector for the sample at
the first vertex. -/
def degTriVerts : List V3 := [((0 : ℝ), (0 : ℝ), (0 : ℝ)), (1, 0, 0), (0, 0, 1)]

/-- The degenerate-orientation mesh. -/
noncomputable def degTriModel : Model := buildModel degTriVerts oneFace

lemma deg_normals : degTriModel.normals = [((0 : ℝ), (-1 : ℝ), (0 : ℝ))] := by
  rw [show degTriModel.normals =
    [faceNormal ((0 : ℝ), (0 : ℝ), (0 : ℝ)) (1, 0, 0) (0, 0, 1)] from rfl]
  unfold faceNormal normalize3 cross3 sub3 dot3 smul3
  norm_num

lemma deg_weights : sampleWeights degTriModel = [1] := by
  show degTriModel.normals.map norm3 = [1]
  rw [deg_normals]
  show [norm3 ((0 : ℝ), (-1 : ℝ), (0 : ℝ))] = [1]
  unfold norm3 dot3
  norm_num

lemma deg_index : sampleIndex degTriModel 0 = 0 := by
  unfold sampleIndex randomIndexWithProbability
  rw [deg_weights]
  norm_num [scanSelect]

lemma deg_pos : samplePos degTriModel rzero 0 = ((0 : ℝ), (0 : ℝ), (0 : ℝ)) := by
  simp only [samplePos, sampleFace, rzero]
  rw [deg_index]
  show baryPosition ((0 : ℝ), (0 : ℝ), (0 : ℝ)) (1, 0, 0) (0, 0, 1)
    (foldUV 0 0).1 (foldUV 0 0).2 = ((0 : ℝ), (0 : ℝ), (0 : ℝ))
  unfold foldUV
  rw [if_neg (by norm_num)]
  unfold baryPosition add3 smul3
  norm_num

lemma deg_nrm : sampleNrm degTriModel rzero 0 = ((0 : ℝ), (-1 : ℝ), (0 : ℝ)) := by
  simp only [sampleNrm, rzero]
  rw [deg_index, deg_normals]
  rfl

lemma deg_rot : (gaussianAt degTriModel rzero 0).rotation =
    axesM ((0 : ℝ), (0 : ℝ), (0 : ℝ)) ((0 : ℝ), (0 : ℝ), (0 : ℝ)) ((0 : ℝ), (1 : ℝ), (0 : ℝ)) := by
  show lookAtRot (samplePos degTriModel rzero 0) (sampleNrm degTriModel rzero 0) up01 = _
  rw [deg_pos, deg_nrm]
  unfold lookAtRot
  rw [if_neg (by
    rintro ⟨-, h2, -⟩
    rw [show (0 : ℝ) - -1 = 1 by norm_num, abs_one] at h2
    rw [EPSILON] at h2
    norm_num at h2)]
  have hz : lookZ ((0 : ℝ), (0 : ℝ), (0 : ℝ)) ((0 : ℝ), (-1 : ℝ), (0 : ℝ)) =
      ((0 : ℝ), (1 : ℝ), (0 : ℝ)) := by
    unfold lookZ unit3 sub3 norm3 dot3 smul3
    norm_num
  have hx : lookX ((0 : ℝ), (0 : ℝ), (0 : ℝ)) ((0 : ℝ), (-1 : ℝ), (0 : ℝ)) up01 =
      ((0 : ℝ), (0 : ℝ), (0 : ℝ)) := by
    unfold lookX
    rw [hz]
    show safeUnit (cross3 up01 ((0 : ℝ), (1 : ℝ), (0 : ℝ))) = _
    unfold safeUnit cross3 up01 norm3 dot3
    norm_num
  have hy : lookY ((0 : ℝ), (0 : ℝ), (0 : ℝ)) ((0 : ℝ), (-1 : ℝ), (0 : ℝ)) up01 =
      ((0 : ℝ), (0 : ℝ), (0 : ℝ)) := by
    unfold lookY
    rw [hz, hx]
    show safeUnit (cross3 ((0 : ℝ), (1 : ℝ), (0 : ℝ)) ((0 : ℝ), (0 : ℝ), (0 : ℝ))) = _
    unfold safeUnit cross3 norm3 dot3
    norm_num
  rw [hx, hy, hz]

/-- Counterexample to C7 as stated: on the degenerate-orientation mesh
the single generated splat has a rotation whose transpose is not its
inverse (the look-at construction collapses two axes to zero when
position - normal is parallel to the up vector). -/
theorem C7_counterexample :
    generateGaussians degTriModel 1 rzero = [gaussianAt degTriModel rzero 0] ∧
    ¬ ((gaussianAt degTriModel rzero 0).rotationᵀ * (gaussianAt degTriModel rzero 0).rotation = 1 ∧
      (gaussianAt degTriModel rzero 0).rotation * (gaussianAt degTriModel rzero 0).rotationᵀ = 1) := by
  refine ⟨rfl, ?_⟩
  rintro ⟨h1, -⟩
  have h00 := congrFun (congrFun h1 0) 0
  rw [deg_rot] at h00
  simp [axesM, Matrix.mul_apply, Fin.sum_univ_three, Matrix.one_apply,
    Matrix.transpose_apply, Matrix.vecHead, Matrix.vecTail] at h00

/-- Claim C7, amended. generateGaussians returns exactly N splats; every splat
has strictly positive scale components and opacity in [0,1]; and a
splat's rotation is orthonormal (transpose equals inverse) whenever the
up vector (0,1,0) is not parallel to position - normal, i.e. whenever
the look-at frame construction is nondegenerate. -/
theorem C7_output_invariants_amended (model : Model) (num : Nat)
    (rands : Nat → ℝ × ℝ × ℝ) :
    (generateGaussians model num rands).length = num ∧
    ∀ i, i < num →
      (generateGaussians model num rands).getD i default = gaussianAt model rands i ∧
      (0 < (gaussianAt model rands i).scale.1 ∧ 0 < (gaussianAt model rands i).scale.2.1 ∧
        0 < (gaussianAt model rands i).scale.2.2) ∧
      (0 ≤ (gaussianAt model rands i).opacity ∧ (gaussianAt model rands i).opacity ≤ 1) ∧
      (cross3 up01 (sub3 (samplePos model rands i) (sampleNrm model rands i)) ≠
          ((0 : ℝ), (0 : ℝ), (0 : ℝ)) →
        (gaussianAt model rands i).rotationᵀ * (gaussianAt model rands i).rotation = 1 ∧
        (gaussianAt model rands i).rotation * (gaussianAt model rands i).rotationᵀ = 1) := by
  refine ⟨by simp [generateGaussians], fun i hi => ⟨?_, ?_, ?_, ?_⟩⟩
  · simp [generateGaussians, List.getD_eq_getElem?_getD, List.getElem?_map,
      List.getElem?_range, hi]
  · exact ⟨by show (0 : ℝ) < 1 / 1000; norm_num,
      by show (0 : ℝ) < 1 / 1000; norm_num,
      by show (0 : ℝ) < 1 / 1000; norm_num⟩
  · exact ⟨by show (0 : ℝ) ≤ 1 / 10; norm_num,
      by show (1 : ℝ) / 10 ≤ 1; norm_num⟩
  · intro hcr
    exact lookAtRot_orthonormal _ _ _ hcr

/-- Vertices of the reference triangle (0,0,0), (1,0,0), (0,1,0) with
loader normal (0, 0, 1). -/
def triVerts : List V3 := [((0 : ℝ), (0 : ℝ), (0 : ℝ)), (1, 0, 0), (0, 1, 0)]

/-- The reference one-triangle mesh. -/
noncomputable def triModel : Model := buildModel triVerts oneFace

lemma tri_normals : triModel.normals = [((0 : ℝ), (0 : ℝ), (1 : ℝ))] := by
  rw [show triModel.normals =
    [faceNormal ((0 : ℝ), (0 : ℝ), (0 : ℝ)) (1, 0, 0) (0, 1, 0)] from rfl, faceNormal_small]

lemma tri_weights : sampleWeights triModel = [1] := by
  show triModel.normals.map norm3 = [1]
  rw [tri_normals]
  show [norm3 ((0 : ℝ), (0 : ℝ), (1 : ℝ))] = [1]
  rw [norm3_e3]

lemma tri_index : sampleIndex triModel 0 = 0 := by
  unfold sampleIndex randomIndexWithProbability
  rw [tri_weights]
  norm_num [scanSelect]

lemma tri_pos : samplePos triModel rzero 0 = ((0 : ℝ), (0 : ℝ), (0 : ℝ)) := by
  simp only [samplePos, sampleFace, rzero]
  rw [tri_index]
  show baryPosition ((0 : ℝ), (0 : ℝ), (0 : ℝ)) (1, 0, 0) (0, 1, 0)
    (foldUV 0 0).1 (foldUV 0 0).2 = ((0 : ℝ), (0 : ℝ), (0 : ℝ))
  unfold foldUV
  rw [if_neg (by norm_num)]
  unfold baryPosition add3 smul3
  norm_num

lemma tri_nrm : sampleNrm triModel rzero 0 = ((0 : ℝ), (0 : ℝ), (1 : ℝ)) := by
  simp only [sampleNrm, rzero]
  rw [tri_index, tri_normals]
  rfl

lemma tri_cross_ne : cross3 up01 (sub3 (samplePos triModel rzero 0)
    (sampleNrm triModel rzero 0)) ≠ ((0 : ℝ), (0 : ℝ), (0 : ℝ)) := by
  rw [tri_pos, tri_nrm]
  unfold cross3 sub3 up01
  intro hceq
  rw [Prod.ext_iff] at hceq
  have h1 := hceq.1
  norm_num at h1

/-- Witness for the amended C7 on the reference triangle with the zero
random stream. -/
theorem C7_output_invariants_amended_witness :
    (generateGaussians triModel 1 rzero).length = 1 ∧
    (generateGaussians triModel 1 rzero).getD 0 default = gaussianAt triModel rzero 0 ∧
    0 < (gaussianAt triModel rzero 0).scale.1 ∧
    0 < (gaussianAt triModel rzero 0).scale.2.1 ∧
    0 < (gaussianAt triModel rzero 0).scale.2.2 ∧
    0 ≤ (gaussianAt triModel rzero 0).opacity ∧
    (gaussianAt triModel rzero 0).opacity ≤ 1 ∧
    (gaussianAt triModel rzero 0).rotationᵀ * (gaussianAt triModel rzero 0).rotation = 1 ∧
    (gaussianAt triModel rzero 0).rotation * (gaussianAt triModel rzero 0).rotationᵀ = 1 := by
  have h := C7_output_invariants_amended triModel 1 rzero
  have h0 := h.2 0 (by norm_num)
  exact ⟨h.1, h0.1, h0.2.1.1, h0.2.1.2.1, h0.2.1.2.2, h0.2.2.1.1, h0.2.2.1.2,
    (h0.2.2.2 tri_cross_ne).1, (h0.2.2.2 tri_cross_ne).2⟩

/-- Counterexample to C9 as stated: on the reference triangle the splat
rotation's forward axis (its third column) is (0, 0, -1) while the unit
normal of the sampled face is (0, 0, 1): the face normal is used as the
look-at target, not as the forward axis. -/
theorem C9_counterexample :
    ((gaussianAt triModel rzero 0).rotation 0 2, (gaussianAt triModel rzero 0).rotation 1 2,
      (gaussianAt triModel rzero 0).rotation 2 2) = ((0 : ℝ), (0 : ℝ), (-1 : ℝ)) ∧
    sampleNrm triModel rzero 0 = ((0 : ℝ), (0 : ℝ), (1 : ℝ)) ∧
    ((0 : ℝ), (0 : ℝ), (-1 : ℝ)) ≠ ((0 : ℝ), (0 : ℝ), (1 : ℝ)) := by
  refine ⟨?_, tri_nrm, ?_⟩
  · have hrot : (gaussianAt triModel rzero 0).rotation =
        lookAtRot ((0 : ℝ), (0 : ℝ), (0 : ℝ)) ((0 : ℝ), (0 : ℝ), (1 : ℝ)) up01 := by
      show lookAtRot (samplePos triModel rzero 0) (sampleNrm triModel rzero 0) up01 = _
      rw [tri_pos, tri_nrm]
    rw [hrot]
    unfold lookAtRot
    rw [if_neg (by
      rintro ⟨-, -, h3⟩
      rw [show (0 : ℝ) - 1 = -1 by norm_num, abs_neg, abs_one] at h3
      rw [EPSILON] at h3
      norm_num at h3)]
    have hz : lookZ ((0 : ℝ), (0 : ℝ), (0 : ℝ)) ((0 : ℝ), (0 : ℝ), (1 : ℝ)) =
        ((0 : ℝ), (0 : ℝ), (-1 : ℝ)) := by
      unfold lookZ unit3 sub3 norm3 dot3 smul3
      norm_num
    show ((lookZ ((0 : ℝ), (0 : ℝ), (0 : ℝ)) ((0 : ℝ), (0 : ℝ), (1 : ℝ))).1,
      (lookZ ((0 : ℝ), (0 : ℝ), (0 : ℝ)) ((0 : ℝ), (0 : ℝ), (1 : ℝ))).2.1,
      (lookZ ((0 : ℝ), (0 : ℝ), (0 : ℝ)) ((0 : ℝ), (0 : ℝ), (1 : ℝ))).2.2) = _
    rw [hz]
  · intro hc
    rw [Prod.ext_iff, Prod.ext_iff] at hc
    have h3 := hc.2.2
    norm_num at h3

/-- Claim C9, amended. Outside the epsilon branch and with the up vector not
parallel to position - normal, the splat rotation is the look-at frame
of (position, normal, up), its forward axis (third column) is the unit
vector pointing from the face normal (used as the look-at target point)
toward the splat position, and the frame is orthonormal. -/
theorem C9_forward_axis_amended (model : Model) (rands : Nat → ℝ × ℝ × ℝ) (i : Nat)
    (heps : ¬ (|(samplePos model rands i).1 - (sampleNrm model rands i).1| < EPSILON ∧
      |(samplePos model rands i).2.1 - (sampleNrm model rands i).2.1| < EPSILON ∧
      |(samplePos model rands i).2.2 - (sampleNrm model rands i).2.2| < EPSILON))
    (hcr : cross3 up01 (sub3 (samplePos model rands i) (sampleNrm model rands i)) ≠
      ((0 : ℝ), (0 : ℝ), (0 : ℝ))) :
    (gaussianAt model rands i).rotation =
      lookAtRot (samplePos model rands i) (sampleNrm model rands i) up01 ∧
    ((gaussianAt model rands i).rotation 0 2, (gaussianAt model rands i).rotation 1 2,
      (gaussianAt model rands i).rotation 2 2) =
      unit3 (sub3 (samplePos model rands i) (sampleNrm model rands i)) ∧
    (gaussianAt model rands i).rotationᵀ * (gaussianAt model rands i).rotation = 1 ∧
    (gaussianAt model rands i).rotation * (gaussianAt model rands i).rotationᵀ = 1 := by
  refine ⟨rfl, ?_, (lookAtRot_orthonormal _ _ _ hcr).1, (lookAtRot_orthonormal _ _ _ hcr).2⟩
  show ((lookAtRot (samplePos model rands i) (sampleNrm model rands i) up01) 0 2,
    (lookAtRot (samplePos model rands i) (sampleNrm model rands i) up01) 1 2,
    (lookAtRot (samplePos model rands i) (sampleNrm model rands i) up01) 2 2) = _
  unfold lookAtRot
  rw [if_neg heps]
  rfl

/-- Witness for the amended C9 on the reference triangle with the zero
random stream. -/
theorem C9_forward_axis_amended_witness :
    (gaussianAt triModel rzero 0).rotation =
      lookAtRot (samplePos triModel rzero 0) (sampleNrm triModel rzero 0) up01 ∧
    ((gaussianAt triModel rzero 0).rotation 0 2, (gaussianAt triModel rzero 0).rotation 1 2,
      (gaussianAt triModel rzero 0).rotation 2 2) =
      unit3 (sub3 (samplePos triModel rzero 0) (sampleNrm triModel rzero 0)) ∧
    (gaussianAt triModel rzero 0).rotationᵀ * (gaussianAt triModel rzero 0).rotation = 1 ∧
    (gaussianAt triModel rzero 0).rotation * (gaussianAt triModel rzero 0).rotationᵀ = 1 := by
  have heps : ¬ (|(samplePos triModel rzero 0).1 - (sampleNrm triModel rzero 0).1| < EPSILON ∧
      |(samplePos triModel rzero 0).2.1 - (sampleNrm triModel rzero 0).2.1| < EPSILON ∧
      |(samplePos triModel rzero 0).2.2 - (sampleNrm triModel rzero 0).2.2| < EPSILON) := by
    rw [tri_pos, tri_nrm]
    rintro ⟨-, -, h3⟩
    rw [show (0 : ℝ) - 1 = -1 by norm_num, abs_neg, abs_one] at h3
    rw [EPSILON] at h3
    norm_num at h3
  exact C9_forward_axis_amended triModel rzero 0 heps tri_cross_ne

end GSplat
